import Mathlib

/-!
Verification of the fac_mcp Gmail/NASA-APOD MCP server core logic.

Strings are modelled as Lean `String`s (sequences of Unicode scalar values);
JavaScript string primitives used by the source (`trim`, `trimEnd`,
`replace(/\s+/g, ' ')`, `slice`, `indexOf`, `startsWith`) are re-implemented
below over `List Char`, with the JavaScript whitespace class spelled out.
External collaborators (the NASA HTTP endpoint, the Gmail provider) are
modelled as explicit function parameters (oracles), so every operation of the
source becomes a pure Lean function of its inputs and of the oracle.
-/

deriving instance DecidableEq for Except

namespace FacMcp

/-- The JavaScript whitespace class (the set matched by `\s` and removed by
`String.prototype.trim`): space, tab, LF, VT, FF, CR, NBSP, Ogham space,
the U+2000..U+200A range, LS, PS, NNBSP, MMSP, ideographic space, BOM. -/
def isJsWs (c : Char) : Bool :=
  c == ' ' || c == '\t' || c == '\n' || c == '\x0b' || c == '\x0c' || c == '\r' ||
  c == '\u00A0' || c == '\u1680' ||
  (decide (0x2000 <= c.toNat) && decide (c.toNat <= 0x200A)) ||
  c == '\u2028' || c == '\u2029' || c == '\u202F' || c == '\u205F' ||
  c == '\u3000' || c == '\uFEFF'

/-- Drop JS whitespace from the front of a character list. -/
def dropWsLeft (l : List Char) : List Char := l.dropWhile isJsWs

/-- `String.prototype.trimEnd` on a character list. -/
def trimEndL (l : List Char) : List Char := (l.reverse.dropWhile isJsWs).reverse

/-- `String.prototype.trim` on a character list. -/
def trimL (l : List Char) : List Char := trimEndL (dropWsLeft l)

/-- `replace(/\s+/g, ' ')` on a character list: every maximal run of JS
whitespace becomes a single space.  The boolean argument records whether the
previous character was part of a whitespace run. -/
def collapseWsAux : Bool → List Char → List Char
  | _, [] => []
  | inRun, c :: rest =>
    if isJsWs c then
      if inRun then collapseWsAux true rest
      else ' ' :: collapseWsAux true rest
    else c :: collapseWsAux false rest

/-- `replace(/\s+/g, ' ')` on a character list. -/
def collapseWs (l : List Char) : List Char := collapseWsAux false l

/-- `a.isPrefixOf b` as a boolean, written out structurally. -/
def beginsWith : List Char → List Char → Bool
  | [], _ => true
  | _ :: _, [] => false
  | a :: as, b :: bs => a == b && beginsWith as bs

/-- String wrapper for `beginsWith` (JS `String.prototype.startsWith`). -/
def beginsWithStr (pat s : String) : Bool := beginsWith pat.data s.data

/-- Split a character list at the first occurrence of `pat`
(JS `indexOf` + `slice`): `some (before, fromMatch)` when `pat` occurs,
`none` when it does not. -/
def splitAtFirst (pat : List Char) : List Char → Option (List Char × List Char)
  | [] => if pat.isEmpty then some ([], []) else none
  | c :: rest =>
    if beginsWith pat (c :: rest) then some ([], c :: rest)
    else (splitAtFirst pat rest).map (fun p => (c :: p.1, p.2))

/-! ## Reply guardrail (`reply.validation.ts`)

`assertReplyBodyHasMainReplyBeforeSpaceEdition(replyBody, format)` throws
when the Space-Edition marker occurs and the text before it is (after
format-dependent processing) empty.  We model the function as a boolean:
`true` = the source throws `MissingReplyBodyError`. -/

inductive DraftFormat where
  | plain
  | html
deriving DecidableEq

/-- The fixed marker the guardrail looks for. -/
def spaceEditionMarker : String := "Did you know? Space Edition!"

/-- State machine for `replace(/<[^>]*>/g, ' ')`: the first argument holds,
reversed, the characters consumed since an unclosed `<` (so they can be
emitted verbatim when the input ends before a `>`), `none` when outside a
candidate tag.  Each matched `<[^>]*>` becomes a single space, exactly as the
source's regex replacement does. -/
def stripTagsGo : Option (List Char) → List Char → List Char
  | none, [] => []
  | some buf, [] => buf.reverse
  | none, c :: rest =>
    if c == '<' then stripTagsGo (some [c]) rest
    else c :: stripTagsGo none rest
  | some buf, c :: rest =>
    if c == '>' then ' ' :: stripTagsGo none rest
    else stripTagsGo (some (c :: buf)) rest

/-- `prefix.replace(/<[^>]*>/g, ' ')` on a character list. -/
def stripTagsSp (l : List Char) : List Char := stripTagsGo none l

/-- `assertReplyBodyHasMainReplyBeforeSpaceEdition` from
`reply.validation.ts`, as the predicate "the guardrail throws
`MissingReplyBodyError`".  In HTML mode the text before the marker's first
occurrence is passed through `replace(/<[^>]*>/g, ' ')`,
`replace(/\s+/g, ' ')` and `trim()`; in plain mode through `trim()` alone;
the guardrail throws exactly when the processed text is empty. -/
def guardrailFails (replyBody : String) (format : DraftFormat) : Bool :=
  match splitAtFirst spaceEditionMarker.data replyBody.data with
  | none => false
  | some (pre, _) =>
    match format with
    | .html => (trimL (collapseWs (stripTagsSp pre))).isEmpty
    | .plain => (trimL pre).isEmpty

/-- Spec-side processing for the HTML mode of the guardrail, following the
spec's words: "strip all tag-like substrings (`<...>`) from that prefix,
collapse whitespace runs to single spaces, and trim".  Tags are deleted
outright here (the source replaces them with a space); the two agree on
whether the processed prefix is empty, which is what the guardrail tests. -/
def stripTagsDelGo : Option (List Char) → List Char → List Char
  | none, [] => []
  | some buf, [] => buf.reverse
  | none, c :: rest =>
    if c == '<' then stripTagsDelGo (some [c]) rest
    else c :: stripTagsDelGo none rest
  | some buf, c :: rest =>
    if c == '>' then stripTagsDelGo none rest
    else stripTagsDelGo (some (c :: buf)) rest

/-- Delete (rather than blank out) every `<[^>]*>` match. -/
def stripTagsDel (l : List Char) : List Char := stripTagsDelGo none l

/-- The spec's processed prefix, per format. -/
def specProcessedPre (format : DraftFormat) (pre : List Char) : List Char :=
  match format with
  | .html => trimL (collapseWs (stripTagsDel pre))
  | .plain => trimL pre

/-! ## NASA APOD service (`apod.service.ts`)

The `Date` objects the source manipulates are always UTC-midnight civil
dates: `parseDateUTC` builds one from a range-checked `YYYY-MM-DD` string
(V8's `MakeDay` rolls overflow days like `2026-02-30` into the next month)
and the only arithmetic applied afterwards is `addDaysUTC(d, -1)` (via
`setUTCDate`, which normalizes across month and year boundaries).  We model
them as civil `(year, month, day)` triples with day stepping spelled out. -/

structure CivilDate where
  year : Int
  month : Nat
  day : Nat
deriving DecidableEq

/-- Gregorian leap year (the rule ECMAScript `Date` uses). -/
def isLeapYear (y : Int) : Bool := y % 4 == 0 && (y % 100 != 0 || y % 400 == 0)

/-- Days in a Gregorian month (month given 1-based). -/
def daysInMonth (y : Int) (m : Nat) : Nat :=
  if m == 2 then (if isLeapYear y then 29 else 28)
  else if m == 4 || m == 6 || m == 9 || m == 11 then 30
  else 31

/-- The civil date one UTC calendar day later (what
`setUTCDate(getUTCDate() + 1)` computes). -/
def nextDayUTC (d : CivilDate) : CivilDate :=
  if d.day < daysInMonth d.year d.month then ⟨d.year, d.month, d.day + 1⟩
  else if d.month < 12 then ⟨d.year, d.month + 1, 1⟩
  else ⟨d.year + 1, 1, 1⟩

/-- The civil date one UTC calendar day earlier (what
`setUTCDate(getUTCDate() - 1)` computes). -/
def prevDayUTC (d : CivilDate) : CivilDate :=
  if 1 < d.day then ⟨d.year, d.month, d.day - 1⟩
  else if 1 < d.month then ⟨d.year, d.month - 1, daysInMonth d.year (d.month - 1)⟩
  else ⟨d.year - 1, 12, 31⟩

/-- `addDaysUTC` from `apod.service.ts`: `setUTCDate(getUTCDate() + days)` on
a copy, i.e. stepping the civil date `days` times (the source only ever calls
it with `days = -1`). -/
def addDaysUTC (d : CivilDate) (days : Int) : CivilDate :=
  match days with
  | .ofNat n => nextDayUTC^[n] d
  | .negSucc n => prevDayUTC^[n + 1] d

/-- Calendar order on civil dates. -/
def civilLE (a b : CivilDate) : Bool :=
  decide (a.year < b.year) ||
  (a.year == b.year && (decide (a.month < b.month) ||
    (a.month == b.month && decide (a.day ≤ b.day))))

/-- Strict calendar order on civil dates. -/
def civilLT (a b : CivilDate) : Bool :=
  decide (a.year < b.year) ||
  (a.year == b.year && (decide (a.month < b.month) ||
    (a.month == b.month && decide (a.day < b.day))))

def isDigit (c : Char) : Bool := decide ('0' ≤ c) && decide (c ≤ '9')

def digitVal (c : Char) : Nat := c.toNat - '0'.toNat

/-- `^\d{4}-\d{2}-\d{2}$` on a character list. -/
def matchesDateRegex : List Char → Bool
  | [y1, y2, y3, y4, h1, m1, m2, h2, d1, d2] =>
    isDigit y1 && isDigit y2 && isDigit y3 && isDigit y4 &&
    h1 == '-' && isDigit m1 && isDigit m2 && h2 == '-' &&
    isDigit d1 && isDigit d2
  | _ => false

/-- Extract the `(year, month, day)` components of a regex-shaped
`YYYY-MM-DD` list (garbage on other shapes; only ever applied after
`matchesDateRegex`). -/
def dateComponents (l : List Char) : Nat × Nat × Nat :=
  match l with
  | [y1, y2, y3, y4, _, m1, m2, _, d1, d2] =>
    (digitVal y1 * 1000 + digitVal y2 * 100 + digitVal y3 * 10 + digitVal y4,
     digitVal m1 * 10 + digitVal m2,
     digitVal d1 * 10 + digitVal d2)
  | _ => (0, 0, 0)

/-- `isValidDateFormat` from `apod.service.ts`: the string must match
`^\d{4}-\d{2}-\d{2}$` and `new Date(date + "T00:00:00Z")` must not be NaN.
Node's (V8's) ISO date-time parser only range-checks the components — month
01–12, day 01–31 — and does NOT check the day against the month's length:
an in-range overflow day is normalized by `MakeDay` rather than rejected
(`"2026-02-30"` parses to 2026-03-02), so such strings pass this check. -/
def isValidDateFormat (date : String) : Bool :=
  matchesDateRegex date.data &&
  decide (1 ≤ (dateComponents date.data).2.1) &&
  decide ((dateComponents date.data).2.1 ≤ 12) &&
  decide (1 ≤ (dateComponents date.data).2.2) &&
  decide ((dateComponents date.data).2.2 ≤ 31)

/-- The civil day the `YYYY-MM-DD` components spell, read literally with no
normalization. -/
def literalCivilDate (date : String) : CivilDate :=
  ⟨Int.ofNat (dateComponents date.data).1, (dateComponents date.data).2.1,
   (dateComponents date.data).2.2⟩

/-- `parseDateUTC` from `apod.service.ts`: `new Date(date + "T00:00:00Z")`.
Per `MakeDay` the day component is an offset from the first of the
(range-checked) month, so out-of-month days roll over
(`"2026-02-30"` → 2026-03-02); modelled as `day - 1` forward day-steps from
the first of the month, which agrees with the literal components exactly
when they name a real calendar day. -/
def parseDateUTC (date : String) : CivilDate :=
  nextDayUTC^[(dateComponents date.data).2.2 - 1]
    ⟨Int.ofNat (dateComponents date.data).1, (dateComponents date.data).2.1, 1⟩

/-- A `YYYY-MM-DD` string that names a real Gregorian calendar day — the
spec's notion of a "real UTC date" (stricter than `isValidDateFormat`,
which also accepts in-range overflow days). -/
def isRealDateString (date : String) : Bool :=
  matchesDateRegex date.data &&
  decide (1 ≤ (dateComponents date.data).2.1) &&
  decide ((dateComponents date.data).2.1 ≤ 12) &&
  decide (1 ≤ (dateComponents date.data).2.2) &&
  decide ((dateComponents date.data).2.2 ≤
    daysInMonth (Int.ofNat (dateComponents date.data).1) (dateComponents date.data).2.1)

/-- Two-digit zero padding (`String(n).padStart(2, '0')`). -/
def pad2 (n : Nat) : String := if n < 10 then "0" ++ toString n else toString n

/-- `formatDateUTC` from `apod.service.ts`: `YYYY-MM-DD` with the year
printed unpadded (`String(getUTCFullYear())`) and month/day padded to two
digits. -/
def formatDateUTC (d : CivilDate) : String :=
  toString d.year ++ "-" ++ pad2 d.month ++ "-" ++ pad2 d.day

/-- A JavaScript `number` as the APOD options carry it: a finite rational,
`NaN`, or an infinity (float rounding is irrelevant to the integer clamping
the source performs). -/
inductive JSNum where
  | finite (q : ℚ)
  | nan
  | posInf
  | negInf
deriving DecidableEq

/-- `Number.isFinite`. -/
def JSNum.isFinite : JSNum → Bool
  | .finite _ => true
  | _ => false

/-- `clampInt` from `apod.service.ts`: non-finite values collapse to `min`;
finite values are floored and clamped into `[min, max]`. -/
def clampInt (value : JSNum) (lo hi : Int) : Int :=
  match value with
  | .finite q => max lo (min hi ⌊q⌋)
  | _ => lo

/-- The effective look-back bound of `getSpacePictureOfTheDay`:
`clampInt(options?.maxDaysBack ?? 10, 0, 30)`. -/
def effectiveMaxDaysBack (maxDaysBack : Option JSNum) : Int :=
  clampInt (maxDaysBack.getD (.finite 10)) 0 30

/-- The NASA API response shape (`ApodApiResponse` in `apod.service.ts`).
The four required fields are plain strings — the source's truthiness check
(`!data?.date || ...`) rejects the empty string, so absence and emptiness
coincide for them; genuinely optional fields are `Option`s. -/
structure ApodApiResponse where
  date : String
  explanation : String
  media_type : String
  title : String
  url : String
  hdurl : Option String
  copyright : Option String
deriving DecidableEq

structure Attribution where
  copyright : Option String
deriving DecidableEq

/-- The service result (`SpacePictureOfTheDay` in `apod.service.ts`). -/
structure SpacePictureOfTheDay where
  requestedDate : String
  dateUsed : String
  title : String
  explanation : String
  mediaType : String
  mediaUrl : String
  hdUrl : Option String
  apodPageUrl : String
  attribution : Attribution
  creditsText : String
  spaceEditionBlock : String
deriving DecidableEq

/-- `normalizeWhitespace` from `apod.service.ts`:
`text.replace(/\s+/g, ' ').trim()`. -/
def normalizeWhitespace (text : String) : String :=
  String.mk (trimL (collapseWs text.data))

/-- `truncate` from `apod.service.ts`: text of at most `maxLen` characters is
returned unchanged; longer text is sliced to `max 0 (maxLen - 1)` characters,
trimmed at the end and suffixed with one ellipsis character. -/
def truncate (text : String) (maxLen : Nat) : String :=
  if text.length ≤ maxLen then text
  else String.mk (trimEndL (text.data.take (maxLen - 1))) ++ "…"

/-- JS `String.prototype.slice(a, b)` (with `0 ≤ a ≤ b`). -/
def strSlice (s : String) (a b : Nat) : String :=
  String.mk ((s.data.drop a).take (b - a))

/-- `apodPageUrlForDate` from `apod.service.ts`: slices `YY`, `MM`, `DD` out
of a `YYYY-MM-DD` string. -/
def apodPageUrlForDate (date : String) : String :=
  "https://apod.nasa.gov/apod/ap" ++ strSlice date 2 4 ++ strSlice date 5 7 ++
    strSlice date 8 10 ++ ".html"

/-- Join strings with a separator (JS `Array.prototype.join`). -/
def joinSep (sep : String) : List String → String
  | [] => ""
  | [s] => s
  | s :: rest => s ++ sep ++ joinSep sep rest

/-- `buildCreditsText` from `apod.service.ts`. -/
def buildCreditsText (apod : ApodApiResponse) (apodPageUrl : String) : String :=
  joinSep " | "
    (["Source: NASA Astronomy Picture of the Day (APOD) — " ++ apodPageUrl]
      ++ (match apod.copyright with
          | some c => ["Credit: " ++ c]
          | none => [])
      ++ ["API: https://api.nasa.gov/"])

/-- The `lines` array of `buildSpaceEditionBlock` from `apod.service.ts`. -/
def spaceEditionLines (apod : ApodApiResponse) (apodPageUrl creditsText : String) :
    List String :=
  ["Did you know? Space Edition!",
   "NASA APOD (" ++ apod.date ++ ") — " ++ apod.title,
   "",
   truncate (normalizeWhitespace apod.explanation) 420,
   "",
   "Media: " ++ apod.url]
  ++ (match apod.hdurl with
      | some h => ["HD: " ++ h]
      | none => [])
  ++ ["More: " ++ apodPageUrl, creditsText]

/-- `buildSpaceEditionBlock` from `apod.service.ts`: the lines joined with
`\n`. -/
def buildSpaceEditionBlock (apod : ApodApiResponse) (apodPageUrl creditsText : String) :
    String :=
  joinSep "\n" (spaceEditionLines apod apodPageUrl creditsText)

/-- `toSpacePictureOfTheDay` from `apod.service.ts`. -/
def toSpacePictureOfTheDay (apod : ApodApiResponse) (requestedDate : String) :
    SpacePictureOfTheDay :=
  let apodPageUrl := apodPageUrlForDate apod.date
  let creditsText := buildCreditsText apod apodPageUrl
  { requestedDate := requestedDate
    dateUsed := apod.date
    title := apod.title
    explanation := apod.explanation
    mediaType := apod.media_type
    mediaUrl := apod.url
    hdUrl := apod.hdurl
    apodPageUrl := apodPageUrl
    attribution := ⟨apod.copyright⟩
    creditsText := creditsText
    spaceEditionBlock := buildSpaceEditionBlock apod apodPageUrl creditsText }

/-- What one HTTP fetch of the APOD endpoint produced: a non-2xx response
(status plus error text) or a 2xx response with its parsed JSON body. -/
inductive FetchResult where
  | notOk (status : Nat) (errorText : String)
  | okJson (data : ApodApiResponse)

/-- `fetchApod` from `apod.service.ts`, over a fetch oracle keyed by the date
string: non-2xx responses become `NASA API error (status): text` (trimmed);
2xx responses missing any of date/title/explanation/url (empty by the
truthiness check) become the unexpected-shape error. -/
def fetchApod (fetch : String → FetchResult) (date : String) :
    Except String ApodApiResponse :=
  match fetch date with
  | .notOk status text =>
    .error (String.mk (trimL ("NASA API error (" ++ toString status ++ "): " ++ text).data))
  | .okJson data =>
    if data.date == "" || data.title == "" || data.explanation == "" || data.url == ""
    then .error "NASA API returned an unexpected response shape."
    else .ok data

structure WalkFailure where
  date : String
  reason : String
deriving DecidableEq

/-- The fallback loop of `getSpacePictureOfTheDay`: try `fuel` successive
dates starting at `current` and walking one UTC day back per failure.
Returns the dates fetched (in order), the recorded failures, and the first
successful response if any. -/
def walkApod (fetch : String → FetchResult) :
    Nat → CivilDate → List String × List WalkFailure × Option ApodApiResponse
  | 0, _ => ([], [], none)
  | n + 1, current =>
    let dateToTry := formatDateUTC current
    match fetchApod fetch dateToTry with
    | .ok apod => ([dateToTry], [], some apod)
    | .error reason =>
      let rest := walkApod fetch n (addDaysUTC current (-1))
      (dateToTry :: rest.1, ⟨dateToTry, reason⟩ :: rest.2.1, rest.2.2)

/-- The errors `getSpacePictureOfTheDay` throws, one constructor per `throw`
site, carrying the data its message interpolates. -/
inductive SPError where
  | invalidDateFormat
  | exhausted (attempts : Nat) (requestedDate : String)
      (lastDate lastReason : Option String)
deriving DecidableEq

/-- The thrown `Error`'s message text (`${last?.date}` prints `undefined`
when the failure list is empty, which the loop structure never produces). -/
def SPError.message : SPError → String
  | .invalidDateFormat => "Invalid date format. Use YYYY-MM-DD."
  | .exhausted n req d r =>
    "Unable to fetch NASA APOD after checking " ++ toString n ++
      " day(s) back from " ++ req ++ ". Last error (" ++ d.getD "undefined" ++
      "): " ++ r.getD "undefined"

structure GetOptions where
  date : Option String
  maxDaysBack : Option JSNum

/-- `getSpacePictureOfTheDay` from `apod.service.ts`, over a fetch oracle and
the current UTC date (`new Date()`, used only when `options.date` is absent).
The first component of the result is the list of dates actually fetched from
the network, in order — the trace the claims about attempt counts and about
"no network call" are stated over. -/
def getSpacePictureOfTheDay (fetch : String → FetchResult) (today : CivilDate)
    (options : GetOptions) : List String × Except SPError SpacePictureOfTheDay :=
  let requestedDate := options.date.getD (formatDateUTC today)
  if isValidDateFormat requestedDate = false then ([], .error .invalidDateFormat)
  else
    let maxDaysBack := effectiveMaxDaysBack options.maxDaysBack
    let r := walkApod fetch (maxDaysBack.toNat + 1) (parseDateUTC requestedDate)
    match r.2.2 with
    | some apod => (r.1, .ok (toSpacePictureOfTheDay apod requestedDate))
    | none =>
      let last := r.2.1.getLast?
      (r.1, .error (.exhausted r.2.1.length requestedDate
        (last.map WalkFailure.date) (last.map WalkFailure.reason)))

/-! ## Gmail service (`gmail.service.ts`)

The provider is modelled as data: a listing of unread message ids plus a
lookup from id to message (headers, snippet, id, threadId).  Header lookup
mirrors `headers.find(h => h.name === N)?.value || ''`. -/

structure GmailMessage where
  headers : List (String × String)
  snippet : String
  id : String
  threadId : String

structure EmailSummary where
  sender : String
  subject : String
  body : String
  emailId : String
  threadId : String
deriving DecidableEq

/-- `headers.find(h => h.name === name)?.value || ''`. -/
def findHeader (headers : List (String × String)) (name : String) : String :=
  ((headers.find? (fun h => h.1 == name)).map Prod.snd).getD ""

/-- `getUnreadEmails` from `gmail.service.ts`: list unread ids, fetch each
message's metadata, extract From/Subject (defaulting to the empty string)
and the snippet. -/
def getUnreadEmails (listing : List String) (get : String → GmailMessage) :
    List EmailSummary :=
  if listing.length == 0 then []
  else listing.map (fun mid =>
    let msg := get mid
    { sender := findHeader msg.headers "From"
      subject := findHeader msg.headers "Subject"
      body := msg.snippet
      emailId := msg.id
      threadId := msg.threadId })

/-- Reply-subject derivation from `createDraftReply`: prepend `Re: ` unless
the subject already starts with it. -/
def replySubjectOf (subjectHeader : String) : String :=
  if beginsWithStr "Re: " subjectHeader then subjectHeader
  else "Re: " ++ subjectHeader

/-- A line terminator (what `.` in a JS regex does not match). -/
def isLineTerm (c : Char) : Bool :=
  c == '\n' || c == '\r' || c == '\u2028' || c == '\u2029'

/-- Index of the last `>` in a character list. -/
def lastIdxOfGt (l : List Char) : Option Nat :=
  match List.findIdx? (fun x => x == '>') l.reverse with
  | some r => some (l.length - 1 - r)
  | none => none

/-- Capture group 1 of the first match of `/<(.+)>/`: at each `<`, the greedy
`(.+)` runs to the last `>` of the line-terminator-free span that follows,
and needs at least one character before it; failing that, the scan resumes
after the `<`. -/
def matchAngleGo : List Char → Option (List Char)
  | [] => none
  | c :: rest =>
    if c == '<' then
      let span := rest.takeWhile (fun x => !isLineTerm x)
      match lastIdxOfGt span with
      | some j => if 1 ≤ j then some (span.take j) else matchAngleGo rest
      | none => matchAngleGo rest
    else matchAngleGo rest

/-- Recipient derivation from `createDraftReply`:
`from.includes('<') ? from.match(/<(.+)>/)?.[1] || from : from`. -/
def toEmailOf (fromHeader : String) : String :=
  if fromHeader.data.contains '<' then
    match matchAngleGo fromHeader.data with
    | some g => if g.isEmpty then fromHeader else String.mk g
    | none => fromHeader
  else fromHeader

/-- The `emailLines` array of `createDraftReply`: fixed-order headers, the
optional threading pair (emitted iff the original `Message-ID` value is
truthy, i.e. nonempty), the content type, the blank separator, the body. -/
def emailLines (fromH subjectH messageIdH replyBody : String) : List String :=
  ["To: " ++ toEmailOf fromH,
   "Subject: " ++ replySubjectOf subjectH]
  ++ (if messageIdH ≠ "" then
        ["In-Reply-To: " ++ messageIdH, "References: " ++ messageIdH]
      else [])
  ++ ["Content-Type: text/plain; charset=utf-8", "", replyBody]

/-- The `emailLines` array as built from the original message's headers. -/
def emailLinesOf (headers : List (String × String)) (replyBody : String) :
    List String :=
  emailLines (findHeader headers "From") (findHeader headers "Subject")
    (findHeader headers "Message-ID") replyBody

/-- `rawEmail`: the lines joined with CRLF. -/
def rawEmailOf (headers : List (String × String)) (replyBody : String) : String :=
  joinSep "\r\n" (emailLinesOf headers replyBody)

/-! ### UTF-8 and base64url (`Buffer.from(raw).toString('base64')` plus the
`+/→-_` substitution and padding strip) -/

/-- UTF-8 encoding of one Unicode scalar value, as `Buffer.from(string)`
performs it, bytes as `Nat`s. -/
def utf8EncodeChar (c : Char) : List Nat :=
  let n := c.toNat
  if n < 0x80 then [n]
  else if n < 0x800 then [0xC0 + n / 64, 0x80 + n % 64]
  else if n < 0x10000 then [0xE0 + n / 4096, 0x80 + n / 64 % 64, 0x80 + n % 64]
  else [0xF0 + n / 262144, 0x80 + n / 4096 % 64, 0x80 + n / 64 % 64, 0x80 + n % 64]

/-- The UTF-8 bytes of a string. -/
def utf8Bytes (s : String) : List Nat := (s.data.map utf8EncodeChar).flatten

/-- The 6-bit groups of a byte sequence, grouped 3 bytes → 4 sextets with the
standard tail handling (1 trailing byte → 2 sextets, 2 → 3). -/
def sextets : List Nat → List Nat
  | [] => []
  | [a] => [a / 4, a % 4 * 16]
  | [a, b] => [a / 4, a % 4 * 16 + b / 16, b % 16 * 4]
  | a :: b :: c :: rest =>
    a / 4 :: (a % 4 * 16 + b / 16) :: (b % 16 * 4 + c / 64) :: c % 64 :: sextets rest

def b64Alphabet : List Char :=
  "ABCDEFGHIJKLMNOPQRSTUVWXYZabcdefghijklmnopqrstuvwxyz0123456789+/".data

def b64StdChar (n : Nat) : Char := b64Alphabet.getD n 'A'

/-- The `=` padding standard base64 appends for a byte count. -/
def b64pad (len : Nat) : List Char :=
  match len % 3 with
  | 1 => ['=', '=']
  | 2 => ['=']
  | _ => []

/-- `Buffer.prototype.toString('base64')` on a byte list. -/
def base64EncodeBytes (bs : List Nat) : List Char :=
  (sextets bs).map b64StdChar ++ b64pad bs.length

/-- `.replace(/\+/g, '-').replace(/\//g, '_')` character-wise. -/
def jsReplacePlusSlash (c : Char) : Char :=
  if c == '+' then '-' else if c == '/' then '_' else c

/-- `.replace(/=+$/, '')`: drop the trailing run of `=`. -/
def stripTrailingEq (cs : List Char) : List Char :=
  (cs.reverse.dropWhile (fun c => c == '=')).reverse

/-- The full encoding `createDraftReply` applies to the raw message bytes. -/
def base64UrlNoPad (bs : List Nat) : List Char :=
  stripTrailingEq ((base64EncodeBytes bs).map jsReplacePlusSlash)

/-- The base64url-encoded draft payload (`encodedEmail` in the source). -/
def encodedEmailOf (headers : List (String × String)) (replyBody : String) :
    List Char :=
  base64UrlNoPad (utf8Bytes (rawEmailOf headers replyBody))

/-- Value of a base64url alphabet character (RFC 4648 §5 decoder table). -/
def b64UrlVal (c : Char) : Option Nat :=
  List.findIdx? (fun x => x == c) (b64Alphabet.map jsReplacePlusSlash)

/-- Decode every character through the base64url table. -/
def charsToSextets : List Char → Option (List Nat)
  | [] => some []
  | c :: rest =>
    match b64UrlVal c, charsToSextets rest with
    | some v, some vs => some (v :: vs)
    | _, _ => none

/-- Reassemble bytes from sextets (4 sextets → 3 bytes, a 2- or 3-sextet
tail → 1 or 2 bytes, a 1-sextet tail is malformed). -/
def unsextets : List Nat → Option (List Nat)
  | [] => some []
  | [_] => none
  | [s0, s1] => some [s0 * 4 + s1 / 16]
  | [s0, s1, s2] => some [s0 * 4 + s1 / 16, s1 % 16 * 16 + s2 / 4]
  | s0 :: s1 :: s2 :: s3 :: rest =>
    (unsextets rest).map (fun bs =>
      (s0 * 4 + s1 / 16) :: (s1 % 16 * 16 + s2 / 4) :: (s2 % 4 * 64 + s3) :: bs)

/-- An (unpadded) base64url decoder, RFC 4648 §5. -/
def decodeBase64Url (cs : List Char) : Option (List Nat) :=
  match charsToSextets cs with
  | some sx => unsextets sx
  | none => none

/-! ## MCP tool boundary (`index.ts`)

The `create_draft_reply` handler destructures its arguments and throws
`'emailId and replyBody are required'` when either is falsy (absent or the
empty string) before calling the Gmail service. -/

inductive DraftReplyCall where
  | rejected (message : String)
  | provider (emailId replyBody : String)
deriving DecidableEq

/-- JS falsiness of an optional string argument: `!x` for
`x : string | undefined`. -/
def jsStrFalsy : Option String → Bool
  | none => true
  | some s => s == ""

/-- The `create_draft_reply` tool handler from `index.ts`, up to the point
where it either throws or invokes `gmailService.createDraftReply`. -/
def createDraftReplyHandler (emailId replyBody : Option String) : DraftReplyCall :=
  if jsStrFalsy emailId || jsStrFalsy replyBody then
    .rejected "emailId and replyBody are required"
  else .provider (emailId.getD "") (replyBody.getD "")

/-- A fetch oracle on which every attempt fails with HTTP 500. -/
def alwaysFail : String → FetchResult := fun _ => .notOk 500 "Server error"

/-- The reason `fetchApod` records for a date (only meaningful on failing
dates). -/
def fetchErrorMsg (fetch : String → FetchResult) (ds : String) : String :=
  match fetchApod fetch ds with
  | .error msg => msg
  | .ok _ => ""

/-- Substring occurrence, via the first-occurrence splitter. -/
def strContains (s pat : String) : Bool :=
  (splitAtFirst pat.data s.data).isSome

/-- An APOD response whose explanation holds a doubled space. -/
def apodWsExpl : ApodApiResponse :=
  ⟨"2026-01-22", "a  b", "image", "T", "https://example.com/a.jpg", none, none⟩

/-- An APOD response whose explanation is 421 letters long. -/
def apodLongExpl : ApodApiResponse :=
  ⟨"2026-01-22", String.mk (List.replicate 421 'a'), "image", "T",
   "https://example.com/a.jpg", none, none⟩

/-- A fetch oracle that answers every date with a fixed response dated
`2099-12-31` (an API that does not echo the queried date). -/
def badEchoFetch : String → FetchResult :=
  fun _ => .okJson ⟨"2099-12-31", "E", "image", "T", "https://example.com/x.jpg", none, none⟩

/-- A fetch oracle that fails on `2026-01-22` and succeeds, echoing the
queried date, on every other date. -/
def goodEchoFetch : String → FetchResult :=
  fun ds =>
    if ds == "2026-01-22" then .notOk 404 "Not found"
    else .okJson ⟨ds, "Explanation", "image", "Previous Day APOD",
      "https://example.com/prev.jpg", none, none⟩

/-- The header block of the composed reply: every line of `emailLines`
before the blank separator. -/
def headerBlockLines (fromH subjectH messageIdH : String) : List String :=
  ["To: " ++ toEmailOf fromH,
   "Subject: " ++ replySubjectOf subjectH]
  ++ (if messageIdH ≠ "" then
        ["In-Reply-To: " ++ messageIdH, "References: " ++ messageIdH]
      else [])
  ++ ["Content-Type: text/plain; charset=utf-8"]

/-- The base64url alphabet character for a sextet. -/
def b64UrlChar (n : Nat) : Char := jsReplacePlusSlash (b64StdChar n)

/-! ## Helper lemmas -/

theorem trimL_eq_nil_iff (l : List Char) :
    trimL l = [] ↔ ∀ c ∈ l, isJsWs c = true := by
  unfold trimL trimEndL dropWsLeft
  constructor
  · intro h c hc
    have h0 : (l.dropWhile isJsWs).reverse.dropWhile isJsWs = [] :=
      List.reverse_eq_nil_iff.mp h
    have h2 : ∀ x ∈ (l.dropWhile isJsWs).reverse, isJsWs x :=
      List.dropWhile_eq_nil_iff.mp h0
    have hl : l.takeWhile isJsWs ++ l.dropWhile isJsWs = l :=
      List.takeWhile_append_dropWhile isJsWs l
    rw [← hl] at hc
    rcases List.mem_append.mp hc with hm | hm
    · exact List.mem_takeWhile_imp hm
    · exact h2 c (List.mem_reverse.mpr hm)
  · intro h
    have h0 : l.dropWhile isJsWs = [] :=
      List.dropWhile_eq_nil_iff.mpr (fun x hx => h x hx)
    rw [h0]
    rfl

theorem collapseWsAux_all_ws (l : List Char) :
    ∀ b, (collapseWsAux b l).all isJsWs = l.all isJsWs := by
  induction l with
  | nil => intro b; rfl
  | cons c rest ih =>
    intro b
    by_cases hc : isJsWs c = true
    · have hsp : isJsWs ' ' = true := rfl
      cases b <;> simp [collapseWsAux, hc, ih, List.all_cons, hsp]
    · simp only [Bool.not_eq_true] at hc
      simp [collapseWsAux, hc, ih false, List.all_cons]

theorem stripTags_all_ws (l : List Char) :
    ∀ mode, (stripTagsGo mode l).all isJsWs = (stripTagsDelGo mode l).all isJsWs := by
  induction l with
  | nil => intro mode; cases mode <;> rfl
  | cons c rest ih =>
    intro mode
    cases mode with
    | none =>
      by_cases h : c == '<'
      · simpa [stripTagsGo, stripTagsDelGo, h] using ih (some [c])
      · simp only [Bool.not_eq_true] at h
        simp [stripTagsGo, stripTagsDelGo, h, ih none, List.all_cons]
    | some buf =>
      by_cases h : c == '>'
      · simp [stripTagsGo, stripTagsDelGo, h, ih none, List.all_cons, isJsWs]
      · simp only [Bool.not_eq_true] at h
        simpa [stripTagsGo, stripTagsDelGo, h] using ih (some (c :: buf))

theorem html_empty_iff (pre : List Char) :
    trimL (collapseWs (stripTagsSp pre)) = [] ↔
      trimL (collapseWs (stripTagsDel pre)) = [] := by
  rw [trimL_eq_nil_iff, trimL_eq_nil_iff, ← List.all_eq_true, ← List.all_eq_true]
  unfold collapseWs stripTagsSp stripTagsDel
  rw [collapseWsAux_all_ws, collapseWsAux_all_ws, stripTags_all_ws]

theorem beginsWith_self_append (p x : List Char) : beginsWith p (p ++ x) = true := by
  induction p with
  | nil => rfl
  | cons a as ih => simp [beginsWith, ih]

theorem beginsWithStr_self (p y : String) : beginsWithStr p (p ++ y) = true := by
  unfold beginsWithStr
  rw [String.data_append]
  exact beginsWith_self_append _ _

theorem beginsWith_false_of_head_ne {a b : Char} (pt st : List Char) (h : ¬a = b) :
    beginsWith (a :: pt) (b :: st) = false := by
  simp [beginsWith, h]

theorem beginsWithStr_false_of_data (p s : String) (a b : Char) (pt st : List Char)
    (hp : p.data = a :: pt) (hs : s.data = b :: st) (h : ¬a = b) :
    beginsWithStr p s = false := by
  unfold beginsWithStr
  rw [hp, hs]
  exact beginsWith_false_of_head_ne _ _ h

theorem append_ne_empty_of_left (a x : String) (c : Char) (t : List Char)
    (h : a.data = c :: t) : a ++ x ≠ "" := by
  intro he
  have hd := congrArg String.data he
  rw [String.data_append, h] at hd
  have he2 : ("" : String).data = [] := rfl
  rw [he2] at hd
  simp at hd

theorem joinSep_append_two (sep y z : String) :
    ∀ xs : List String, xs ≠ [] →
      joinSep sep (xs ++ [y, z]) = joinSep sep xs ++ sep ++ y ++ sep ++ z := by
  intro xs
  induction xs with
  | nil => intro h; exact absurd rfl h
  | cons a t ih =>
    intro _
    cases t with
    | nil => simp [joinSep, String.append_assoc]
    | cons b u =>
      have hne : b :: u ≠ ([] : List String) := by simp
      have ih2 := ih hne
      simp only [List.cons_append] at ih2 ⊢
      simp only [joinSep]
      rw [ih2]
      simp [String.append_assoc]

theorem char_toNat_lt (c : Char) : c.toNat < 1114112 := by
  have h : c.val.toNat < 0xd800 ∨ (0xe000 ≤ c.val.toNat ∧ c.val.toNat < 0x110000) :=
    c.valid
  have he : c.toNat = c.val.toNat := rfl
  rw [he]
  omega

theorem utf8EncodeChar_lt (c : Char) : ∀ b ∈ utf8EncodeChar c, b < 256 := by
  have hn : c.toNat < 1114112 := char_toNat_lt c
  intro b hb
  by_cases h1 : c.toNat < 0x80
  · simp [utf8EncodeChar, h1] at hb
    omega
  · by_cases h2 : c.toNat < 0x800
    · simp [utf8EncodeChar, h1, h2] at hb
      rcases hb with rfl | rfl <;> omega
    · by_cases h3 : c.toNat < 0x10000
      · simp [utf8EncodeChar, h1, h2, h3] at hb
        rcases hb with rfl | rfl | rfl <;> omega
      · simp [utf8EncodeChar, h1, h2, h3] at hb
        rcases hb with rfl | rfl | rfl | rfl <;> omega

theorem utf8Bytes_lt (s : String) : ∀ b ∈ utf8Bytes s, b < 256 := by
  intro b hb
  unfold utf8Bytes at hb
  rcases List.mem_flatten.mp hb with ⟨l, hl, hbl⟩
  rcases List.mem_map.mp hl with ⟨c, _, rfl⟩
  exact utf8EncodeChar_lt c b hbl

theorem sextets_lt : ∀ bs : List Nat, (∀ b ∈ bs, b < 256) →
    ∀ x ∈ sextets bs, x < 64
  | [], _, x, hx => by simp [sextets] at hx
  | [a], h, x, hx => by
    have ha : a < 256 := h a (by simp)
    simp [sextets] at hx
    rcases hx with rfl | rfl <;> omega
  | [a, b], h, x, hx => by
    have ha : a < 256 := h a (by simp)
    have hb : b < 256 := h b (by simp)
    simp [sextets] at hx
    rcases hx with rfl | rfl | rfl <;> omega
  | a :: b :: c :: rest, h, x, hx => by
    have ha : a < 256 := h a (by simp)
    have hb : b < 256 := h b (by simp)
    have hc : c < 256 := h c (by simp)
    simp only [sextets, List.mem_cons] at hx
    rcases hx with rfl | rfl | rfl | rfl | hmem
    · omega
    · omega
    · omega
    · omega
    · exact sextets_lt rest (fun y hy => h y (by simp [hy])) x hmem

theorem unsextets_sextets : ∀ bs : List Nat, (∀ b ∈ bs, b < 256) →
    unsextets (sextets bs) = some bs
  | [], _ => rfl
  | [a], h => by
    have ha : a < 256 := h a (by simp)
    show unsextets [a / 4, a % 4 * 16] = some [a]
    simp [unsextets]
    omega
  | [a, b], h => by
    have ha : a < 256 := h a (by simp)
    have hb : b < 256 := h b (by simp)
    show unsextets [a / 4, a % 4 * 16 + b / 16, b % 16 * 4] = some [a, b]
    simp [unsextets]
    omega
  | a :: b :: c :: rest, h => by
    have ha : a < 256 := h a (by simp)
    have hb : b < 256 := h b (by simp)
    have hc : c < 256 := h c (by simp)
    have ih := unsextets_sextets rest (fun y hy => h y (by simp [hy]))
    show unsextets (a / 4 :: (a % 4 * 16 + b / 16) :: (b % 16 * 4 + c / 64) ::
      c % 64 :: sextets rest) = some (a :: b :: c :: rest)
    simp [unsextets, ih]
    omega

theorem b64UrlVal_b64UrlChar : ∀ n, n < 64 → b64UrlVal (b64UrlChar n) = some n := by
  decide

theorem b64UrlChar_ne_eq : ∀ n, n < 64 → ¬b64UrlChar n = '=' := by
  decide

theorem charsToSextets_map (s : List Nat) (h : ∀ x ∈ s, x < 64) :
    charsToSextets (s.map b64UrlChar) = some s := by
  induction s with
  | nil => rfl
  | cons v t ih =>
    have hv : v < 64 := h v (by simp)
    simp only [List.map_cons, charsToSextets]
    rw [b64UrlVal_b64UrlChar v hv, ih (fun x hx => h x (by simp [hx]))]

theorem dropWhile_append_of_all {α : Type} {p : α → Bool} :
    ∀ l1 l2 : List α, (∀ a ∈ l1, p a = true) →
      List.dropWhile p (l1 ++ l2) = List.dropWhile p l2 := by
  intro l1 l2 h
  induction l1 with
  | nil => rfl
  | cons a t ih =>
    have ha : p a = true := h a (by simp)
    simp only [List.cons_append, List.dropWhile_cons, ha, if_true]
    exact ih (fun x hx => h x (by simp [hx]))

theorem dropWhile_eq_self_of_all_false {α : Type} {p : α → Bool} :
    ∀ l : List α, (∀ a ∈ l, p a = false) → List.dropWhile p l = l := by
  intro l h
  cases l with
  | nil => rfl
  | cons a t =>
    have ha : p a = false := h a (by simp)
    simp [List.dropWhile_cons, ha]

theorem stripTrailingEq_append (xs pad : List Char)
    (hxs : ∀ c ∈ xs, ¬c = '=') (hpad : ∀ c ∈ pad, c = '=') :
    stripTrailingEq (xs ++ pad) = xs := by
  unfold stripTrailingEq
  rw [List.reverse_append]
  rw [dropWhile_append_of_all _ _ (fun a ha => by
    rw [hpad a (List.mem_reverse.mp ha)]
    rfl)]
  rw [dropWhile_eq_self_of_all_false _ (fun a ha => by
    have := hxs a (List.mem_reverse.mp ha)
    simp [this])]
  exact List.reverse_reverse xs

theorem b64pad_all_eq (n : Nat) : ∀ c ∈ b64pad n, c = '=' := by
  intro c hc
  unfold b64pad at hc
  split at hc <;> simp_all

theorem addDaysUTC_neg_one (d : CivilDate) : addDaysUTC d (-1) = prevDayUTC d := rfl

theorem civilLE_iff (a b : CivilDate) :
    civilLE a b = true ↔
      (a.year < b.year ∨ (a.year = b.year ∧ (a.month < b.month ∨
        (a.month = b.month ∧ a.day ≤ b.day)))) := by
  unfold civilLE
  simp [Bool.or_eq_true, Bool.and_eq_true, decide_eq_true_eq, beq_iff_eq]

theorem civilLE_refl (d : CivilDate) : civilLE d d = true := by
  rw [civilLE_iff]
  right
  exact ⟨rfl, Or.inr ⟨rfl, le_refl _⟩⟩

theorem civilLE_trans {a b c : CivilDate} (h1 : civilLE a b = true)
    (h2 : civilLE b c = true) : civilLE a c = true := by
  rw [civilLE_iff] at h1 h2 ⊢
  rcases h1 with h1 | ⟨e1, h1⟩
  · rcases h2 with h2 | ⟨e2, h2⟩ <;> left <;> omega
  · rcases h2 with h2 | ⟨e2, h2⟩
    · left; omega
    · right
      refine ⟨by omega, ?_⟩
      rcases h1 with h1 | ⟨f1, h1⟩
      · rcases h2 with h2 | ⟨f2, h2⟩ <;> left <;> omega
      · rcases h2 with h2 | ⟨f2, h2⟩
        · left; omega
        · right; exact ⟨by omega, by omega⟩

theorem prevDayUTC_le (d : CivilDate) : civilLE (prevDayUTC d) d = true := by
  rw [civilLE_iff]
  unfold prevDayUTC
  by_cases h1 : 1 < d.day
  · rw [if_pos h1]
    dsimp only
    right
    exact ⟨rfl, Or.inr ⟨rfl, by omega⟩⟩
  · rw [if_neg h1]
    by_cases h2 : 1 < d.month
    · rw [if_pos h2]
      dsimp only
      right
      exact ⟨rfl, Or.inl (by omega)⟩
    · rw [if_neg h2]
      dsimp only
      left
      omega

theorem prevDay_iter_le (i : Nat) (d : CivilDate) :
    civilLE (prevDayUTC^[i] d) d = true := by
  induction i with
  | zero => simpa using civilLE_refl d
  | succ k ih =>
    rw [Function.iterate_succ_apply']
    exact civilLE_trans (prevDayUTC_le _) ih

theorem nextDay_iter_in_month (y : Int) (m : Nat) :
    ∀ j : Nat, j + 1 ≤ daysInMonth y m → nextDayUTC^[j] ⟨y, m, 1⟩ = ⟨y, m, j + 1⟩ := by
  intro j
  induction j with
  | zero => intro _; rfl
  | succ i ih =>
    intro h
    rw [Function.iterate_succ_apply', ih (by omega)]
    unfold nextDayUTC
    rw [if_pos (by dsimp only; omega)]

theorem parseDateUTC_real (s : String) (h : isRealDateString s = true) :
    parseDateUTC s = literalCivilDate s := by
  unfold isRealDateString at h
  simp only [Bool.and_eq_true, decide_eq_true_eq] at h
  obtain ⟨⟨⟨⟨_, h1⟩, h2⟩, h3⟩, h4⟩ := h
  unfold parseDateUTC literalCivilDate
  rw [nextDay_iter_in_month _ _ _ (by omega)]
  have hd : (dateComponents s.data).2.2 - 1 + 1 = (dateComponents s.data).2.2 := by
    omega
  rw [hd]

theorem walkApod_log_ne_nil (fetch : String → FetchResult) (n : Nat) (c : CivilDate) :
    (walkApod fetch (n + 1) c).1 ≠ [] := by
  unfold walkApod
  dsimp only
  cases fetchApod fetch (formatDateUTC c) <;> simp

theorem walkApod_all_fail (fetch : String → FetchResult)
    (hfail : ∀ ds, ∃ m, fetchApod fetch ds = Except.error m) :
    ∀ (n : Nat) (c : CivilDate),
      walkApod fetch n c =
        ((List.range n).map (fun i => formatDateUTC (prevDayUTC^[i] c)),
         (List.range n).map (fun i =>
            (⟨formatDateUTC (prevDayUTC^[i] c),
              fetchErrorMsg fetch (formatDateUTC (prevDayUTC^[i] c))⟩ : WalkFailure)),
         none) := by
  intro n
  induction n with
  | zero => intro c; rfl
  | succ k ih =>
    intro c
    obtain ⟨m, hm⟩ := hfail (formatDateUTC c)
    have hmsg : fetchErrorMsg fetch (formatDateUTC c) = m := by
      unfold fetchErrorMsg
      rw [hm]
    unfold walkApod
    dsimp only
    rw [hm, addDaysUTC_neg_one, ih (prevDayUTC c)]
    rw [List.range_succ_eq_map, List.map_cons, List.map_cons, List.map_map,
      List.map_map]
    have hmap1 : List.map ((fun i => formatDateUTC (prevDayUTC^[i] c)) ∘ Nat.succ)
        (List.range k) =
        List.map (fun i => formatDateUTC (prevDayUTC^[i] (prevDayUTC c)))
          (List.range k) :=
      List.map_congr_left (fun i _ => by
        show formatDateUTC (prevDayUTC^[i + 1] c) = _
        rw [Function.iterate_succ_apply])
    have hmap2 : List.map ((fun i =>
          (⟨formatDateUTC (prevDayUTC^[i] c),
            fetchErrorMsg fetch (formatDateUTC (prevDayUTC^[i] c))⟩ : WalkFailure)) ∘
          Nat.succ) (List.range k) =
        List.map (fun i =>
          (⟨formatDateUTC (prevDayUTC^[i] (prevDayUTC c)),
            fetchErrorMsg fetch (formatDateUTC (prevDayUTC^[i] (prevDayUTC c)))⟩ :
            WalkFailure)) (List.range k) :=
      List.map_congr_left (fun i _ => by
        show (⟨formatDateUTC (prevDayUTC^[i + 1] c), _⟩ : WalkFailure) = _
        rw [Function.iterate_succ_apply])
    rw [hmap1, hmap2]
    simp only [Function.iterate_zero_apply, hmsg]

theorem getLast?_map_range {α : Type} (f : Nat → α) (k : Nat) :
    ((List.range (k + 1)).map f).getLast? = some (f k) := by
  rw [List.getLast?_eq_getElem?]
  simp [List.getElem?_map, List.getElem?_range]

theorem effectiveMaxDaysBack_nat (k : Nat) (hk : k ≤ 30) :
    effectiveMaxDaysBack (some (.finite (k : ℚ))) = (k : Int) := by
  unfold effectiveMaxDaysBack clampInt
  simp only [Option.getD_some]
  rw [Int.floor_natCast]
  have h1 : min (30 : Int) (k : Int) = (k : Int) := by omega
  rw [h1]
  omega

theorem splitAtFirst_isSome_append (pat : List Char) :
    ∀ (l1 l2 : List Char), (splitAtFirst pat (l1 ++ (pat ++ l2))).isSome = true := by
  intro l1
  induction l1 with
  | nil =>
    intro l2
    rw [List.nil_append]
    cases pat with
    | nil =>
      cases l2 with
      | nil => decide
      | cons c rest => simp [splitAtFirst, beginsWith]
    | cons p ps =>
      simp only [List.cons_append]
      simp [splitAtFirst, beginsWith, beginsWith_self_append]
  | cons c t ih =>
    intro l2
    rw [List.cons_append]
    unfold splitAtFirst
    by_cases hb : beginsWith pat (c :: (t ++ (pat ++ l2))) = true
    · simp [hb]
    · simp only [Bool.not_eq_true] at hb
      simp [hb, Option.isSome_map, ih l2]

theorem strContains_append (a b c : String) : strContains (a ++ b ++ c) b = true := by
  unfold strContains
  have h : (a ++ b ++ c).data = a.data ++ (b.data ++ c.data) := by
    rw [String.data_append, String.data_append, List.append_assoc]
  rw [h]
  exact splitAtFirst_isSome_append _ _ _

theorem walkApod_ok (fetch : String → FetchResult) :
    ∀ (n : Nat) (c : CivilDate) (log : List String) (fs : List WalkFailure)
      (apod : ApodApiResponse),
      walkApod fetch n c = (log, fs, some apod) →
      ∃ i, i < n ∧ fetchApod fetch (formatDateUTC (prevDayUTC^[i] c)) = .ok apod := by
  intro n
  induction n with
  | zero =>
    intro c log fs apod h
    simp [walkApod] at h
  | succ k ih =>
    intro c log fs apod h
    unfold walkApod at h
    dsimp only at h
    cases hf : fetchApod fetch (formatDateUTC c) with
    | ok a =>
      rw [hf] at h
      have ha : a = apod := by
        have := congrArg (fun p => p.2.2) h
        simpa using this
      refine ⟨0, by omega, ?_⟩
      rw [Function.iterate_zero_apply, hf, ha]
    | error m =>
      rw [hf] at h
      rcases hr : walkApod fetch k (addDaysUTC c (-1)) with ⟨lg, fs2, ro⟩
      rw [hr] at h
      have hro : ro = some apod := by
        have := congrArg (fun p => p.2.2) h
        simpa using this
      obtain ⟨i, hi, hok⟩ := ih (addDaysUTC c (-1)) lg fs2 apod (by rw [hr, hro])
      refine ⟨i + 1, by omega, ?_⟩
      rw [Function.iterate_succ_apply]
      rw [addDaysUTC_neg_one] at hok
      exact hok

theorem fetchApod_ok_inv (fetch : String → FetchResult) (ds : String)
    (apod : ApodApiResponse) (h : fetchApod fetch ds = .ok apod) :
    fetch ds = .okJson apod ∧ apod.date ≠ "" ∧ apod.url ≠ "" := by
  unfold fetchApod at h
  cases hf : fetch ds with
  | notOk st tx =>
    rw [hf] at h
    simp at h
  | okJson data =>
    rw [hf] at h
    dsimp only at h
    by_cases hc : (data.date == "" || data.title == "" ||
        data.explanation == "" || data.url == "") = true
    · rw [if_pos hc] at h
      simp at h
    · rw [if_neg hc] at h
      have hda : data = apod := by
        simpa using h
      subst hda
      simp only [Bool.or_eq_true, beq_iff_eq, not_or] at hc
      exact ⟨rfl, hc.1.1.1, hc.2⟩

/-! ## Claim theorems -/

/-- C6: `checkReplyHasBodyBeforeMarker(replyBody, format)` fails with
`MissingReplyBodyError` if and only if the marker `"Did you know? Space
Edition!"` occurs in `replyBody` and the text before its first occurrence is
empty after processing — in plain mode after trimming the raw text, in HTML
mode after stripping tag-like substrings, collapsing whitespace runs to
single spaces, and trimming (the spec-side processing `specProcessedPre`);
any `replyBody` without the marker passes regardless of format. -/
theorem C6_guardrail_iff (replyBody : String) (format : DraftFormat) :
    guardrailFails replyBody format = true ↔
      ∃ pre rest,
        splitAtFirst spaceEditionMarker.data replyBody.data = some (pre, rest) ∧
        specProcessedPre format pre = [] := by
  unfold guardrailFails
  cases hsp : splitAtFirst spaceEditionMarker.data replyBody.data with
  | none => simp
  | some pr =>
    obtain ⟨pre, rest⟩ := pr
    cases format with
    | plain => simp [specProcessedPre, List.isEmpty_iff]
    | html =>
      simp only [List.isEmpty_iff, specProcessedPre, Option.some.injEq, Prod.mk.injEq]
      constructor
      · intro h
        exact ⟨pre, rest, ⟨rfl, rfl⟩, (html_empty_iff pre).mp h⟩
      · rintro ⟨p, r, ⟨hp, hr⟩, h⟩
        subst hp; subst hr
        exact (html_empty_iff pre).mpr h

/-- C9: for every provider listing of N unread ids, `listUnread` returns
exactly N summaries, in listing order; each summary echoes the fetched
message's id and threadId and takes sender/subject from the From/Subject
headers; `findHeader` yields the empty string when the header is absent. -/
theorem C9_getUnreadEmails (listing : List String) (get : String → GmailMessage) :
    (getUnreadEmails listing get).length = listing.length ∧
    (∀ i : Nat, (getUnreadEmails listing get).get? i =
      (listing.get? i).map (fun mid =>
        { sender := findHeader (get mid).headers "From"
          subject := findHeader (get mid).headers "Subject"
          body := (get mid).snippet
          emailId := (get mid).id
          threadId := (get mid).threadId })) ∧
    (∀ (hs : List (String × String)) (n : String),
      hs.find? (fun h => h.1 == n) = none → findHeader hs n = "") := by
  refine ⟨?_, ?_, ?_⟩
  · unfold getUnreadEmails
    split
    · next h =>
      have h0 : listing.length = 0 := by simpa using h
      simp [h0]
    · simp
  · intro i
    unfold getUnreadEmails
    split
    · next h =>
      have h0 : listing = [] := by
        have h1 : listing.length = 0 := by simpa using h
        exact List.length_eq_zero.mp h1
      simp [h0]
    · rw [List.get?_map]
  · intro hs n h
    unfold findHeader
    rw [h]
    rfl

/-- C10: a `create_draft_reply` call whose `emailId` or `replyBody` argument
is absent or the empty string is rejected with the error
`emailId and replyBody are required` before the Gmail provider is invoked
(the handler never reaches `createDraftReply`). -/
theorem C10_create_draft_reply_required (emailId replyBody : Option String)
    (h : emailId = none ∨ emailId = some "" ∨ replyBody = none ∨ replyBody = some "") :
    createDraftReplyHandler emailId replyBody =
      .rejected "emailId and replyBody are required" := by
  unfold createDraftReplyHandler
  have hb : (jsStrFalsy emailId || jsStrFalsy replyBody) = true := by
    rcases h with h | h | h | h <;> subst h <;> simp [jsStrFalsy]
  simp [hb]

/-- C10 witness: the empty `replyBody` (type-valid per the schema) is
rejected. -/
theorem C10_witness :
    createDraftReplyHandler (some "abc123") (some "") =
      .rejected "emailId and replyBody are required" :=
  C10_create_draft_reply_required (some "abc123") (some "")
    (Or.inr (Or.inr (Or.inr rfl)))

set_option maxRecDepth 400000 in
/-- C8 counterexample: `2026-02-30` is not a real UTC calendar date
(February 2026 has 28 days), yet the program accepts it — Node's `Date`
parse rolls it over to 2026-03-02 instead of yielding NaN — so the call
performs a network fetch (for the rolled-over date) and fails with the
exhausted error, not with the invalid-date error. -/
theorem C8_counterexample :
    daysInMonth 2026 2 < 30 ∧
    isRealDateString "2026-02-30" = false ∧
    isValidDateFormat "2026-02-30" = true ∧
    getSpacePictureOfTheDay alwaysFail ⟨2026, 1, 22⟩
        ⟨some "2026-02-30", some (.finite 0)⟩ =
      (["2026-03-02"],
       .error (.exhausted 1 "2026-02-30" (some "2026-03-02")
         (some "NASA API error (500): Server error"))) := by
  exact ⟨by decide, by decide, by decide, by decide⟩

/-- C8 amended: a date argument failing the literal `YYYY-MM-DD` regex, or
whose month is outside 01–12 or day outside 01–31, makes
`getSpacePictureOfTheDay` fail with the invalid-date error at once, with an
empty fetch trace (zero network calls); every argument passing that check —
including in-range non-real dates such as `2026-02-30`, which the JS `Date`
parse rolls over instead of rejecting — is accepted: the call then performs
at least one fetch and never fails with the invalid-date error. -/
theorem C8_invalid_date_no_fetch (fetch : String → FetchResult) (today : CivilDate)
    (d : String) (mdb : Option JSNum) :
    (isValidDateFormat d = false →
      getSpacePictureOfTheDay fetch today ⟨some d, mdb⟩ =
        ([], .error .invalidDateFormat)) ∧
    (isValidDateFormat d = true →
      (getSpacePictureOfTheDay fetch today ⟨some d, mdb⟩).1 ≠ [] ∧
      (getSpacePictureOfTheDay fetch today ⟨some d, mdb⟩).2 ≠
        .error .invalidDateFormat) := by
  constructor
  · intro h
    unfold getSpacePictureOfTheDay
    simp [h]
  · intro h
    unfold getSpacePictureOfTheDay
    simp only [Option.getD_some]
    rw [if_neg (by simp [h])]
    rcases hw : walkApod fetch ((effectiveMaxDaysBack mdb).toNat + 1)
        (parseDateUTC d) with ⟨lg, fs, ro⟩
    have hlg : lg ≠ [] := by
      have := walkApod_log_ne_nil fetch (effectiveMaxDaysBack mdb).toNat (parseDateUTC d)
      rw [hw] at this
      exact this
    cases ro with
    | some apod => exact ⟨hlg, by simp⟩
    | none => exact ⟨hlg, by simp⟩

set_option maxRecDepth 400000 in
/-- C1 counterexample: `maxDaysBack = NaN` does not behave like
`maxDaysBack = 10` — `clampInt` sends every non-finite value to the lower
clamp bound 0, so a NaN call makes a single attempt while a 10 call makes
eleven. -/
theorem C1_counterexample :
    effectiveMaxDaysBack (some .nan) = 0 ∧
    effectiveMaxDaysBack (some .nan) ≠ 10 ∧
    getSpacePictureOfTheDay alwaysFail ⟨2026, 1, 22⟩ ⟨some "2026-01-22", some .nan⟩ ≠
      getSpacePictureOfTheDay alwaysFail ⟨2026, 1, 22⟩
        ⟨some "2026-01-22", some (.finite 10)⟩ := by
  exact ⟨by decide, by decide, by decide⟩

/-- C1 amended: the effective look-back bound is `maxDaysBack` floored and
clamped into `[0, 30]`; a missing `maxDaysBack` falls back to the default of
10; a non-finite `maxDaysBack` (NaN or an infinity) falls back to the lower
clamp bound 0 (not to 10), without erroring. -/
theorem C1_amended (v : JSNum) (q : ℚ) :
    effectiveMaxDaysBack none = 10 ∧
    effectiveMaxDaysBack (some (.finite q)) = max 0 (min 30 ⌊q⌋) ∧
    (v.isFinite = false → effectiveMaxDaysBack (some v) = 0) ∧
    0 ≤ effectiveMaxDaysBack (some v) ∧ effectiveMaxDaysBack (some v) ≤ 30 ∧
    0 ≤ effectiveMaxDaysBack none ∧ effectiveMaxDaysBack none ≤ 30 := by
  refine ⟨by decide, rfl, ?_, ?_, ?_, by decide, by decide⟩
  · intro h
    cases v with
    | finite q' => simp [JSNum.isFinite] at h
    | nan => rfl
    | posInf => rfl
    | negInf => rfl
  · cases v with
    | finite q' => exact le_max_left 0 _
    | nan => decide
    | posInf => decide
    | negInf => decide
  · cases v with
    | finite q' =>
      refine max_le (by norm_num) (min_le_left 30 _)
    | nan => decide
    | posInf => decide
    | negInf => decide

set_option maxRecDepth 100000 in
/-- C2 counterexample: the explanation line of the plain-text block is NOT
the explanation unchanged when it has at most 420 characters (whitespace is
normalized first: `"a  b"` becomes `"a b"`), and for longer explanations the
cut is at character 419, not 420 (421 letters yield 419 letters plus the
ellipsis, not 420 plus the ellipsis). -/
theorem C2_counterexample :
    (apodWsExpl.explanation.length ≤ 420 ∧
      (spaceEditionLines apodWsExpl "p" "c").get? 3 ≠ some apodWsExpl.explanation) ∧
    (420 < apodLongExpl.explanation.length ∧
      (spaceEditionLines apodLongExpl "p" "c").get? 3 ≠
        some (String.mk (trimEndL (apodLongExpl.explanation.data.take 420)) ++ "…")) := by
  exact ⟨⟨by decide, by decide⟩, ⟨by decide, by decide⟩⟩

/-- C2 amended: the explanation line of the plain-text block is the
whitespace-normalized explanation (whitespace runs collapsed to single
spaces, ends trimmed) when that normalized text has at most 420 characters;
when longer, it is the normalized text cut at character 419, trailing
whitespace trimmed, with a single ellipsis character appended (total length
at most 420). -/
theorem C2_amended (apod : ApodApiResponse) (apodPageUrl creditsText : String) :
    (spaceEditionLines apod apodPageUrl creditsText).get? 3 =
      some (truncate (normalizeWhitespace apod.explanation) 420) ∧
    ((normalizeWhitespace apod.explanation).length ≤ 420 →
      (spaceEditionLines apod apodPageUrl creditsText).get? 3 =
        some (normalizeWhitespace apod.explanation)) ∧
    (420 < (normalizeWhitespace apod.explanation).length →
      (spaceEditionLines apod apodPageUrl creditsText).get? 3 =
        some (String.mk
          (trimEndL ((normalizeWhitespace apod.explanation).data.take 419)) ++ "…")) := by
  refine ⟨rfl, ?_, ?_⟩
  · intro h
    have ht : truncate (normalizeWhitespace apod.explanation) 420 =
        normalizeWhitespace apod.explanation := by
      unfold truncate
      rw [if_pos h]
    rw [show (spaceEditionLines apod apodPageUrl creditsText).get? 3 =
        some (truncate (normalizeWhitespace apod.explanation) 420) from rfl, ht]
  · intro h
    have ht : truncate (normalizeWhitespace apod.explanation) 420 =
        String.mk
          (trimEndL ((normalizeWhitespace apod.explanation).data.take 419)) ++ "…" := by
      unfold truncate
      rw [if_neg (by omega)]
    rw [show (spaceEditionLines apod apodPageUrl creditsText).get? 3 =
        some (truncate (normalizeWhitespace apod.explanation) 420) from rfl, ht]

/-- C5 counterexample: an original message that does carry a `Message-ID`
header, but with an empty value, gets no `In-Reply-To`/`References` lines —
the source tests the extracted value's truthiness, not the header's
presence. -/
theorem C5_counterexample :
    ("Message-ID", "") ∈ ([("Message-ID", "")] : List (String × String)) ∧
    emailLinesOf [("Message-ID", "")] "Hello" =
      ["To: ", "Subject: Re: ", "Content-Type: text/plain; charset=utf-8",
       "", "Hello"] ∧
    (∀ l ∈ emailLinesOf [("Message-ID", "")] "Hello",
      beginsWithStr "In-Reply-To: " l = false ∧
      beginsWithStr "References: " l = false) := by
  exact ⟨by decide, by decide, by decide⟩

/-- C5 amended: the composed reply is the header block, one blank-line
separator, then the body; no header line is blank; the serialization joins
them with CRLF so exactly one blank line separates headers from body; and
the `In-Reply-To`/`References` lines (both set to the original `Message-ID`
value) appear if and only if the original message carried a `Message-ID`
header with a nonempty value. -/
theorem C5_amended (headers : List (String × String)) (replyBody : String) :
    emailLinesOf headers replyBody =
      headerBlockLines (findHeader headers "From") (findHeader headers "Subject")
        (findHeader headers "Message-ID") ++ ["", replyBody] ∧
    (∀ l ∈ headerBlockLines (findHeader headers "From") (findHeader headers "Subject")
        (findHeader headers "Message-ID"), l ≠ "") ∧
    rawEmailOf headers replyBody =
      joinSep "\r\n" (headerBlockLines (findHeader headers "From")
        (findHeader headers "Subject") (findHeader headers "Message-ID")) ++
        "\r\n" ++ "\r\n" ++ replyBody ∧
    ((∃ l ∈ headerBlockLines (findHeader headers "From") (findHeader headers "Subject")
        (findHeader headers "Message-ID"), beginsWithStr "In-Reply-To: " l = true) ↔
      findHeader headers "Message-ID" ≠ "") ∧
    ((∃ l ∈ headerBlockLines (findHeader headers "From") (findHeader headers "Subject")
        (findHeader headers "Message-ID"), beginsWithStr "References: " l = true) ↔
      findHeader headers "Message-ID" ≠ "") ∧
    (findHeader headers "Message-ID" ≠ "" →
      ("In-Reply-To: " ++ findHeader headers "Message-ID") ∈
        headerBlockLines (findHeader headers "From") (findHeader headers "Subject")
          (findHeader headers "Message-ID") ∧
      ("References: " ++ findHeader headers "Message-ID") ∈
        headerBlockLines (findHeader headers "From") (findHeader headers "Subject")
          (findHeader headers "Message-ID")) := by
  set f := findHeader headers "From" with hf
  set sj := findHeader headers "Subject" with hsj
  set m := findHeader headers "Message-ID" with hm
  have hdecomp : emailLinesOf headers replyBody =
      headerBlockLines f sj m ++ ["", replyBody] := by
    unfold emailLinesOf emailLines headerBlockLines
    rw [← hf, ← hsj, ← hm]
    by_cases h : m = "" <;> simp [h]
  have hblock_ne : headerBlockLines f sj m ≠ [] := by
    unfold headerBlockLines
    simp
  have hTo : ("To: " ++ toEmailOf f).data = 'T' :: ("o: ".data ++ (toEmailOf f).data) := rfl
  have hSubj : ("Subject: " ++ replySubjectOf sj).data =
      'S' :: ("ubject: ".data ++ (replySubjectOf sj).data) := rfl
  refine ⟨hdecomp, ?_, ?_, ?_, ?_, ?_⟩
  · intro l hl
    by_cases h : m = ""
    · simp [headerBlockLines, h] at hl
      rcases hl with rfl | rfl | rfl
      · exact append_ne_empty_of_left _ _ 'T' _ rfl
      · exact append_ne_empty_of_left _ _ 'S' _ rfl
      · decide
    · simp [headerBlockLines, h] at hl
      rcases hl with rfl | rfl | rfl | rfl | rfl
      · exact append_ne_empty_of_left _ _ 'T' _ rfl
      · exact append_ne_empty_of_left _ _ 'S' _ rfl
      · exact append_ne_empty_of_left _ _ 'I' _ rfl
      · exact append_ne_empty_of_left _ _ 'R' _ rfl
      · decide
  · unfold rawEmailOf
    rw [show joinSep "\r\n" (emailLinesOf headers replyBody) =
        joinSep "\r\n" (headerBlockLines f sj m ++ ["", replyBody]) by rw [hdecomp]]
    rw [joinSep_append_two "\r\n" "" replyBody _ hblock_ne]
    simp [String.append_assoc]
  · constructor
    · rintro ⟨l, hl, hb⟩
      by_cases h : m = ""
      · exfalso
        simp [headerBlockLines, h] at hl
        rcases hl with rfl | rfl | rfl
        · rw [beginsWithStr_false_of_data _ _ 'I' 'T' _ _ rfl hTo (by decide)] at hb
          exact Bool.false_ne_true hb
        · rw [beginsWithStr_false_of_data _ _ 'I' 'S' _ _ rfl hSubj (by decide)] at hb
          exact Bool.false_ne_true hb
        · have : beginsWithStr "In-Reply-To: "
              "Content-Type: text/plain; charset=utf-8" = false := by decide
          rw [this] at hb
          exact Bool.false_ne_true hb
      · exact h
    · intro h
      refine ⟨"In-Reply-To: " ++ m, ?_, beginsWithStr_self _ _⟩
      simp [headerBlockLines, h]
  · constructor
    · rintro ⟨l, hl, hb⟩
      by_cases h : m = ""
      · exfalso
        simp [headerBlockLines, h] at hl
        rcases hl with rfl | rfl | rfl
        · rw [beginsWithStr_false_of_data _ _ 'R' 'T' _ _ rfl hTo (by decide)] at hb
          exact Bool.false_ne_true hb
        · rw [beginsWithStr_false_of_data _ _ 'R' 'S' _ _ rfl hSubj (by decide)] at hb
          exact Bool.false_ne_true hb
        · have : beginsWithStr "References: "
              "Content-Type: text/plain; charset=utf-8" = false := by decide
          rw [this] at hb
          exact Bool.false_ne_true hb
      · exact h
    · intro h
      refine ⟨"References: " ++ m, ?_, beginsWithStr_self _ _⟩
      simp [headerBlockLines, h]
  · intro h
    constructor <;> simp [headerBlockLines, h]

/-- C7: the draft payload is the message's UTF-8 bytes base64url-encoded
with every padding character stripped, and an RFC 4648 §5 decoder applied to
the payload returns exactly the bytes of the CRLF-joined header block and
body that were encoded — the encoding round-trips losslessly. -/
theorem C7_base64url_roundtrip (headers : List (String × String)) (replyBody : String) :
    decodeBase64Url (encodedEmailOf headers replyBody) =
      some (utf8Bytes (rawEmailOf headers replyBody)) ∧
    '=' ∉ encodedEmailOf headers replyBody := by
  have hlt : ∀ b ∈ utf8Bytes (rawEmailOf headers replyBody), b < 256 :=
    utf8Bytes_lt _
  have hsx : ∀ x ∈ sextets (utf8Bytes (rawEmailOf headers replyBody)), x < 64 :=
    sextets_lt _ hlt
  have hchars : ∀ c ∈ (sextets (utf8Bytes (rawEmailOf headers replyBody))).map
      b64UrlChar, ¬c = '=' := by
    intro c hc
    rcases List.mem_map.mp hc with ⟨n, hn, rfl⟩
    exact b64UrlChar_ne_eq n (hsx n hn)
  have henc : encodedEmailOf headers replyBody =
      (sextets (utf8Bytes (rawEmailOf headers replyBody))).map b64UrlChar := by
    unfold encodedEmailOf base64UrlNoPad base64EncodeBytes
    rw [List.map_append, List.map_map]
    have hpadmap : ∀ n, (b64pad n).map jsReplacePlusSlash = b64pad n := by
      intro n
      unfold b64pad
      split <;> rfl
    rw [hpadmap]
    exact stripTrailingEq_append _ _ hchars (b64pad_all_eq _)
  constructor
  · rw [henc]
    unfold decodeBase64Url
    rw [charsToSextets_map _ hsx]
    exact unsextets_sextets _ hlt
  · rw [henc]
    intro hmem
    exact hchars '=' hmem rfl

set_option maxRecDepth 400000 in
/-- C4 counterexample: for the accepted overflow date `2026-02-30` the
requested date is NOT attempt zero — the walk starts at the rolled-over
parse 2026-03-02, so with `maxDaysBack = 1` and every attempt failing the
two fetched dates are 2026-03-02 and 2026-03-01, neither of which is the
requested date. -/
theorem C4_counterexample :
    isValidDateFormat "2026-02-30" = true ∧
    (getSpacePictureOfTheDay alwaysFail ⟨2026, 1, 22⟩
        ⟨some "2026-02-30", some (.finite 1)⟩).1 =
      ["2026-03-02", "2026-03-01"] ∧
    ("2026-03-02" : String) ≠ "2026-02-30" := by
  exact ⟨by decide, by decide, by decide⟩

/-- C4 amended: when every fetch attempt fails (non-2xx status or a
malformed response body), a call with an accepted requested date and an
integer `maxDaysBack = k ∈ [0, 30]` fetches exactly `k + 1` dates, each one
UTC calendar day earlier than the one before — attempt zero being the
requested date as the JS `Date` parse denotes it (`parseDateUTC`, which
rolls overflow days over and equals the literal requested date whenever it
names a real calendar day, per the final conjunct) — and fails with the
exhausted-fallback error carrying the attempt count and the most recent
failure's date and reason; the error message contains the attempt count,
that date, and that reason (earlier failures are only counted). -/
theorem C4_exhausted_fallback (fetch : String → FetchResult) (today : CivilDate)
    (req : String) (k : Nat) (hreq : isValidDateFormat req = true) (hk : k ≤ 30)
    (hfail : ∀ ds, ∃ m, fetchApod fetch ds = Except.error m) :
    getSpacePictureOfTheDay fetch today ⟨some req, some (.finite (k : ℚ))⟩ =
      ((List.range (k + 1)).map
        (fun i => formatDateUTC (prevDayUTC^[i] (parseDateUTC req))),
       .error (.exhausted (k + 1) req
         (some (formatDateUTC (prevDayUTC^[k] (parseDateUTC req))))
         (some (fetchErrorMsg fetch
           (formatDateUTC (prevDayUTC^[k] (parseDateUTC req))))))) ∧
    strContains (SPError.message (.exhausted (k + 1) req
        (some (formatDateUTC (prevDayUTC^[k] (parseDateUTC req))))
        (some (fetchErrorMsg fetch
          (formatDateUTC (prevDayUTC^[k] (parseDateUTC req)))))))
      (toString (k + 1)) = true ∧
    strContains (SPError.message (.exhausted (k + 1) req
        (some (formatDateUTC (prevDayUTC^[k] (parseDateUTC req))))
        (some (fetchErrorMsg fetch
          (formatDateUTC (prevDayUTC^[k] (parseDateUTC req)))))))
      (formatDateUTC (prevDayUTC^[k] (parseDateUTC req))) = true ∧
    strContains (SPError.message (.exhausted (k + 1) req
        (some (formatDateUTC (prevDayUTC^[k] (parseDateUTC req))))
        (some (fetchErrorMsg fetch
          (formatDateUTC (prevDayUTC^[k] (parseDateUTC req)))))))
      (fetchErrorMsg fetch (formatDateUTC (prevDayUTC^[k] (parseDateUTC req)))) =
      true ∧
    (∀ s : String, isRealDateString s = true → parseDateUTC s = literalCivilDate s) := by
  have hmsg : ∀ (n : Nat) (rq D R : String),
      SPError.message (.exhausted n rq (some D) (some R)) =
        "Unable to fetch NASA APOD after checking " ++ toString n ++
          (" day(s) back from " ++ rq ++ ". Last error (" ++ D ++ "): " ++ R) := by
    intro n rq D R
    simp [SPError.message, String.append_assoc]
  refine ⟨?_, ?_, ?_, ?_, fun s hs => parseDateUTC_real s hs⟩
  · unfold getSpacePictureOfTheDay
    dsimp only [Option.getD_some]
    rw [if_neg (by simp [hreq])]
    rw [effectiveMaxDaysBack_nat k hk]
    rw [Int.toNat_natCast]
    rw [walkApod_all_fail fetch hfail (k + 1) (parseDateUTC req)]
    dsimp only
    rw [getLast?_map_range]
    simp [List.length_map, List.length_range]
  · rw [hmsg]
    exact strContains_append _ _ _
  · rw [hmsg]
    rw [show "Unable to fetch NASA APOD after checking " ++ toString (k + 1) ++
        (" day(s) back from " ++ req ++ ". Last error (" ++
          formatDateUTC (prevDayUTC^[k] (parseDateUTC req)) ++ "): " ++
          fetchErrorMsg fetch (formatDateUTC (prevDayUTC^[k] (parseDateUTC req)))) =
      ("Unable to fetch NASA APOD after checking " ++ toString (k + 1) ++
        " day(s) back from " ++ req ++ ". Last error (") ++
        formatDateUTC (prevDayUTC^[k] (parseDateUTC req)) ++
        ("): " ++ fetchErrorMsg fetch
          (formatDateUTC (prevDayUTC^[k] (parseDateUTC req)))) by
      simp [String.append_assoc]]
    exact strContains_append _ _ _
  · rw [hmsg]
    rw [show "Unable to fetch NASA APOD after checking " ++ toString (k + 1) ++
        (" day(s) back from " ++ req ++ ". Last error (" ++
          formatDateUTC (prevDayUTC^[k] (parseDateUTC req)) ++ "): " ++
          fetchErrorMsg fetch (formatDateUTC (prevDayUTC^[k] (parseDateUTC req)))) =
      ("Unable to fetch NASA APOD after checking " ++ toString (k + 1) ++
        " day(s) back from " ++ req ++ ". Last error (" ++
        formatDateUTC (prevDayUTC^[k] (parseDateUTC req)) ++ "): ") ++
        fetchErrorMsg fetch (formatDateUTC (prevDayUTC^[k] (parseDateUTC req))) ++
        "" by
      simp [String.append_assoc]]
    exact strContains_append _ _ _

/-- C4 witness: `maxDaysBack = 1` with all attempts failing makes exactly 2
attempts (day 0 and day −1) and then errors. -/
theorem C4_witness :
    getSpacePictureOfTheDay alwaysFail ⟨2026, 1, 22⟩
      ⟨some "2026-01-22", some (.finite ((1 : Nat) : ℚ))⟩ =
      ((List.range (1 + 1)).map
        (fun i => formatDateUTC (prevDayUTC^[i] (parseDateUTC "2026-01-22"))),
       .error (.exhausted (1 + 1) "2026-01-22"
         (some (formatDateUTC (prevDayUTC^[1] (parseDateUTC "2026-01-22"))))
         (some (fetchErrorMsg alwaysFail
           (formatDateUTC (prevDayUTC^[1] (parseDateUTC "2026-01-22"))))))) :=
  (C4_exhausted_fallback alwaysFail ⟨2026, 1, 22⟩ "2026-01-22" 1 (by decide)
    (by omega) (fun ds => ⟨_, rfl⟩)).1

set_option maxRecDepth 400000 in
/-- C3 counterexample: the code copies `dateUsed` from the API response's
`date` field unchecked, so an API that answers with a future date yields a
successful result whose `dateUsed` (2099-12-31) is after the requested date
(2026-01-22) in calendar order. -/
theorem C3_counterexample :
    (getSpacePictureOfTheDay badEchoFetch ⟨2026, 1, 22⟩
        ⟨some "2026-01-22", none⟩).2 =
      .ok (toSpacePictureOfTheDay
        ⟨"2099-12-31", "E", "image", "T", "https://example.com/x.jpg", none, none⟩
        "2026-01-22") ∧
    (toSpacePictureOfTheDay
      ⟨"2099-12-31", "E", "image", "T", "https://example.com/x.jpg", none, none⟩
      "2026-01-22").dateUsed = "2099-12-31" ∧
    (toSpacePictureOfTheDay
      ⟨"2099-12-31", "E", "image", "T", "https://example.com/x.jpg", none, none⟩
      "2026-01-22").requestedDate = "2026-01-22" ∧
    civilLE (parseDateUTC "2099-12-31") (parseDateUTC "2026-01-22") = false := by
  exact ⟨by decide, by decide, by decide, by decide⟩

/-- C3 amended: provided every successful fetch response echoes the queried
date in its `date` field (a well-behaved API — the code itself does not
check this), every successful result's `dateUsed` is the string form of a
calendar date at or before the requested date as the JS `Date` parse
denotes it (`parseDateUTC`, which rolls overflow days over and equals the
literal requested date whenever it names a real calendar day, per the final
conjunct), since the date walk only steps backward from there; and
`mediaUrl` is nonempty in every successful result (unconditionally, by the
response-shape check). -/
theorem C3_dateUsed_le (fetch : String → FetchResult) (today : CivilDate)
    (opts : GetOptions) (log : List String) (sp : SpacePictureOfTheDay)
    (hecho : ∀ ds r, fetch ds = .okJson r → r.date = ds)
    (h : getSpacePictureOfTheDay fetch today opts = (log, .ok sp)) :
    (∃ c : CivilDate, sp.dateUsed = formatDateUTC c ∧
      civilLE c (parseDateUTC sp.requestedDate) = true) ∧
    sp.mediaUrl ≠ "" ∧
    (∀ s : String, isRealDateString s = true → parseDateUTC s = literalCivilDate s) := by
  unfold getSpacePictureOfTheDay at h
  by_cases hv : isValidDateFormat (opts.date.getD (formatDateUTC today)) = false
  · rw [if_pos hv] at h
    have := congrArg (fun p => p.2) h
    simp at this
  · rw [if_neg hv] at h
    dsimp only at h
    rcases hw : walkApod fetch
        ((effectiveMaxDaysBack opts.maxDaysBack).toNat + 1)
        (parseDateUTC (opts.date.getD (formatDateUTC today))) with ⟨lg, fs, ro⟩
    rw [hw] at h
    cases ro with
    | none =>
      have := congrArg (fun p => p.2) h
      simp at this
    | some apod =>
      have hsp : toSpacePictureOfTheDay apod (opts.date.getD (formatDateUTC today)) =
          sp := by
        have := congrArg (fun p => p.2) h
        simpa using this
      obtain ⟨i, hi, hok⟩ :=
        walkApod_ok fetch _ _ lg fs apod (by rw [hw])
      obtain ⟨hfetch, hdate, hurl⟩ := fetchApod_ok_inv fetch _ apod hok
      have hdate2 : apod.date =
          formatDateUTC (prevDayUTC^[i]
            (parseDateUTC (opts.date.getD (formatDateUTC today)))) :=
        hecho _ _ hfetch
      subst hsp
      refine ⟨⟨prevDayUTC^[i]
        (parseDateUTC (opts.date.getD (formatDateUTC today))), ?_, ?_⟩, ?_,
        fun s hs => parseDateUTC_real s hs⟩
      · exact hdate2
      · exact prevDay_iter_le i _
      · exact hurl

set_option maxRecDepth 100000 in
/-- C3 witness: an API failing on the requested date and echoing the queried
date one day earlier satisfies the hypotheses, and the result's `dateUsed`
precedes the requested date. -/
theorem C3_witness :
    ∃ (log : List String) (sp : SpacePictureOfTheDay),
      getSpacePictureOfTheDay goodEchoFetch ⟨2026, 1, 22⟩
        ⟨some "2026-01-22", some (.finite 5)⟩ = (log, .ok sp) ∧
      ((∃ c : CivilDate, sp.dateUsed = formatDateUTC c ∧
        civilLE c (parseDateUTC sp.requestedDate) = true) ∧ sp.mediaUrl ≠ "" ∧
        (∀ s : String, isRealDateString s = true →
          parseDateUTC s = literalCivilDate s)) := by
  have hecho : ∀ ds r, goodEchoFetch ds = .okJson r → r.date = ds := by
    intro ds r h
    unfold goodEchoFetch at h
    split at h
    · exact absurd h (by simp)
    · injection h with h2
      rw [← h2]
  have hrun : getSpacePictureOfTheDay goodEchoFetch ⟨2026, 1, 22⟩
      ⟨some "2026-01-22", some (.finite 5)⟩ =
      (["2026-01-22", "2026-01-21"],
       .ok (toSpacePictureOfTheDay
         ⟨"2026-01-21", "Explanation", "image", "Previous Day APOD",
          "https://example.com/prev.jpg", none, none⟩ "2026-01-22")) := by decide
  exact ⟨_, _, hrun,
    C3_dateUsed_le goodEchoFetch ⟨2026, 1, 22⟩ _ _ _ hecho hrun⟩

end FacMcp
